import Mathlib

/-!
Verification of `scripts/simple-http-ws-proxy.py`: a single-file HTTP server
that serves static files and relays WebSocket-upgrade connections to a fixed
backend. The development shallowly embeds the handler's pure logic:

* the request classifier `do_GET` (lines 18-24),
* the handshake serializer (lines 33-41), including the semantics of
  `email.message.Message`: iteration yields header names in order with
  duplicates, and `headers[name]` returns the value of the FIRST header whose
  name matches case-insensitively,
* the relay loop (lines 51-77) as a small-step interpreter driven by an
  environment script of select rounds; the Python local variable `other` is
  modelled by an `Option Sock` field (`none` = the local is unbound, so that
  referencing it raises `NameError`),
* the surrounding `handle_websocket` control flow (lines 26-84), where the
  outer `except Exception` answers 502 and `send_error` marks the connection
  to be closed by the server framework.

Bytes are modelled as natural numbers; `socket.sendall` is modelled as
all-or-error (its full-write semantics), with the bytes partially written
before a `sendall` failure not tracked.
-/

namespace WsProxy

/-- The two sockets of one relay session: the accepted client connection and
the TCP connection to the backend game server (`127.0.0.1:8081`). -/
inductive Sock where
  | client
  | backend
deriving DecidableEq, Repr

/-- The fixed client↔backend pairing. In the data branch the code computes
`other = backend if s is client else client` (line 64), which is exactly this
mapping. -/
def Sock.pair : Sock → Sock
  | Sock.client => Sock.backend
  | Sock.backend => Sock.client

theorem Sock.pair_ne (s : Sock) : s.pair ≠ s := by cases s <;> simp [Sock.pair]

/-- Python `str.lower` on the ASCII range (all strings the program compares
are ASCII; `Char.toLower` lower-cases exactly the ASCII upper-case letters). -/
def pyLower (s : String) : String := String.mk (s.data.map Char.toLower)

/-- An HTTP header list: (name, value) pairs in received order, duplicates
kept, exactly as `email.message.Message._headers` stores them. -/
abbrev Headers := List (String × String)

/-- `email.message.Message.get(name, failobj)`: the value of the first header
whose name equals `name` case-insensitively, else `failobj`. Both
`self.headers.get('Upgrade', '')` (line 20) and `self.headers[header]`
(line 39) go through this lookup. -/
def headersGet (hs : Headers) (name failobj : String) : String :=
  match hs.find? (fun kv => pyLower kv.1 == pyLower name) with
  | some kv => kv.2
  | none => failobj

/-- The two ways `do_GET` can dispatch an accepted request. -/
inductive RouteKind where
  | websocketRelay
  | staticFile
deriving DecidableEq, Repr

/-- Lines 18-24: `if self.headers.get('Upgrade', '').lower() == 'websocket':
self.handle_websocket() else: super().do_GET()`. -/
def do_GET (hs : Headers) : RouteKind :=
  if pyLower (headersGet hs "Upgrade" "") == "websocket" then
    RouteKind.websocketRelay
  else
    RouteKind.staticFile

/-- The captured upgrade request: method (`self.command`), path, protocol
version and the ordered header list. -/
structure CapturedRequest where
  command : String
  path : String
  request_version : String
  headers : Headers
deriving DecidableEq, Repr

def CRLF : String := "\r\n"

/-- Line 34: `f"{self.command} {self.path} {self.request_version}\r\n"`. -/
def requestLineBytes (req : CapturedRequest) : String :=
  req.command ++ " " ++ req.path ++ " " ++ req.request_version ++ CRLF

/-- Lines 34-41: the byte sequence sent to the backend before relaying.
`for header in self.headers` yields the header NAMES in order (duplicates
included); `self.headers[header]` is the first case-insensitive match, so a
duplicated name is serialized with the first value each time. -/
def forwardedBytes (req : CapturedRequest) : String :=
  requestLineBytes req
    ++ String.join (req.headers.map
        (fun kv => kv.1 ++ ": " ++ headersGet req.headers kv.1 "" ++ CRLF))
    ++ CRLF

/-- The spec's serialization contract: each received header with its own
value, `"<Name>: <Value>\r\n"`, in original order, then a blank line. -/
def specForwardedBytes (req : CapturedRequest) : String :=
  requestLineBytes req
    ++ String.join (req.headers.map (fun kv => kv.1 ++ ": " ++ kv.2 ++ CRLF))
    ++ CRLF

/-- What `s.recv(4096)` followed by the forwarding write does, as chosen by
the environment: `chunk data sendOk` is a successful `recv` returning `data`
(empty = EOF) where `sendOk` tells whether the `other.sendall(data)` call
succeeds; `recvErr` is `recv` raising `socket.error`. -/
inductive RecvOutcome where
  | chunk (data : List Nat) (sendOk : Bool)
  | recvErr
deriving DecidableEq, Repr

/-- One round of `select.select(sockets, [], sockets, 1.0)`: the sockets
reported exceptional and, for each socket reported readable (in list order),
the outcome of its `recv`/forward. -/
structure Round where
  exceptional : List Sock
  reads : List (Sock × RecvOutcome)
deriving DecidableEq, Repr

/-- The relay loop's state. `sockets` is the watched list (Python `sockets`),
`other` the loop-local Python variable `other` (`none` = never assigned),
`closedSocks` the sockets on which `close()` has been called, in call order;
`toClient`/`toBackend` accumulate the bytes delivered by `sendall`;
`crashed` is set when an exception escapes the loop (NameError from an
unbound `other`, or `list.remove` on an absent element). -/
structure RelayState where
  sockets : List Sock
  other : Option Sock
  closedSocks : List Sock
  toClient : List Nat
  toBackend : List Nat
  crashed : Bool
deriving DecidableEq, Repr

/-- Line 51: `sockets = [client, backend]`, with the local `other` unbound. -/
def initState : RelayState :=
  { sockets := [Sock.client, Sock.backend], other := none, closedSocks := [],
    toClient := [], toBackend := [], crashed := false }

/-- Append bytes delivered by `other.sendall(data)` to the receiving side. -/
def deliverTo (st : RelayState) : Sock → List Nat → RelayState
  | Sock.client, d => { st with toClient := st.toClient ++ d }
  | Sock.backend, d => { st with toBackend := st.toBackend ++ d }

/-- `sockets.remove(s); s.close()`, the teardown used by every branch. -/
def closeSock (st : RelayState) (s : Sock) : RelayState :=
  { st with sockets := st.sockets.erase s, closedSocks := st.closedSocks ++ [s] }

/-- Lines 55-57: `for s in exceptional: sockets.remove(s); s.close()`.
`list.remove` raises `ValueError` when `s` is absent, which nothing catches. -/
def handleExceptional (st : RelayState) (s : Sock) : RelayState :=
  if st.crashed then st
  else if s ∈ st.sockets then closeSock st s
  else { st with crashed := true }

/-- Lines 59-77, one socket of the readable list. A socket already closed
earlier in the same round makes `recv` raise `socket.error`, caught at line
73 where `if s in sockets` fails, so nothing happens. In the data branch the
code first binds `other` (line 64) and then calls `sendall`; a `sendall`
`socket.error` is caught by the same handler, which closes `s` (the socket
that was READ from). In the EOF branch the code uses whatever `other`
currently holds: the stale binding of a previous data branch, or nothing at
all (NameError, uncaught here). -/
def handleReadable (st : RelayState) (s : Sock) (o : RecvOutcome) : RelayState :=
  if st.crashed then st
  else if s ∈ st.sockets then
    match o with
    | RecvOutcome.recvErr => closeSock st s
    | RecvOutcome.chunk data sendOk =>
      if data.isEmpty then
        let st1 := closeSock st s
        match st.other with
        | none => { st1 with crashed := true }
        | some oth => if oth ∈ st1.sockets then closeSock st1 oth else st1
      else
        let st1 := { st with other := some s.pair }
        if sendOk then deliverTo st1 s.pair data else closeSock st1 s
  else st

/-- The exceptional pass of one loop iteration. -/
def runExceptional (st : RelayState) (l : List Sock) : RelayState :=
  l.foldl handleExceptional st

/-- The readable pass of one loop iteration. -/
def runReadable (st : RelayState) (l : List (Sock × RecvOutcome)) : RelayState :=
  l.foldl (fun acc p => handleReadable acc p.1 p.2) st

/-- One full iteration of the `while sockets:` body (lines 53-77):
exceptional sockets first, then the readable ones. -/
def stepRound (st : RelayState) (r : Round) : RelayState :=
  runReadable (runExceptional st r.exceptional) r.reads

/-- The loop is over when its guard `while sockets:` fails or an exception
has escaped the body. -/
def relayLoopDone (st : RelayState) : Bool := st.sockets.isEmpty || st.crashed

/-- The relay loop run against a finite script of select rounds supplied by
the environment. -/
def runRelay (st : RelayState) : List Round → RelayState
  | [] => st
  | r :: rs => if relayLoopDone st then st else runRelay (stepRound st r) rs

/-- What `select` guarantees about a round: each returned list holds distinct
sockets drawn from the watched set passed to it. -/
def validRound (st : RelayState) (r : Round) : Prop :=
  r.exceptional.Nodup ∧ (∀ s ∈ r.exceptional, s ∈ st.sockets)
    ∧ (r.reads.map Prod.fst).Nodup ∧ (∀ p ∈ r.reads, p.1 ∈ st.sockets)

instance (st : RelayState) (r : Round) : Decidable (validRound st r) := by
  unfold validRound; infer_instance

/-- The environment of one `handle_websocket` call: whether
`backend.connect` succeeds, whether the three handshake `send` calls succeed,
and the select rounds observed while relaying. -/
structure WsEnv where
  connectOk : Bool
  handshakeOk : Bool
  rounds : List Round
deriving DecidableEq, Repr

/-- The observable result of `handle_websocket`: how many times
`backend.connect` was attempted, the handshake bytes fully written to the
backend (`none` when an exception interrupted setup), the relay loop's final
state when the loop ran, the `send_error` status if one was sent, and the
handler's `close_connection` flag on return (`true` makes the server
framework close the client socket). -/
structure HandlerResult where
  connectAttempts : Nat
  handshakeSent : Option String
  relayFinal : Option RelayState
  errorResponse : Option Nat
  close_connection : Bool
deriving DecidableEq, Repr

/-- Lines 26-84. The single `backend.connect` (line 31) is the only connect
attempt on every path. Any exception - connect failure, a handshake `send`
failure, or an error escaping the relay loop - lands in the outer
`except Exception` (line 82), which calls `send_error(502, "Bad Gateway")`;
`send_error` adds a `Connection: close` header and sets
`close_connection = True`, so the framework closes the client afterwards.
On normal loop completion line 80 sets `close_connection = False`. No branch
closes the backend socket outside the relay loop. -/
def handle_websocket (req : CapturedRequest) (env : WsEnv) : HandlerResult :=
  if !env.connectOk then
    { connectAttempts := 1, handshakeSent := none, relayFinal := none,
      errorResponse := some 502, close_connection := true }
  else if !env.handshakeOk then
    { connectAttempts := 1, handshakeSent := none, relayFinal := none,
      errorResponse := some 502, close_connection := true }
  else
    let fin := runRelay initState env.rounds
    if fin.crashed then
      { connectAttempts := 1, handshakeSent := some (forwardedBytes req),
        relayFinal := some fin, errorResponse := some 502, close_connection := true }
    else
      { connectAttempts := 1, handshakeSent := some (forwardedBytes req),
        relayFinal := some fin, errorResponse := none, close_connection := false }

/-- The bytes a successful `recv` returned (empty for EOF or an error). -/
def readData : RecvOutcome → List Nat
  | RecvOutcome.chunk d _ => d
  | RecvOutcome.recvErr => []

/-- A read event that returns a non-empty chunk and forwards it without
error. -/
def isOkChunk : RecvOutcome → Bool
  | RecvOutcome.chunk d ok => !d.isEmpty && ok
  | RecvOutcome.recvErr => false

/-- A round in which nothing is exceptional and every readable event is the
client delivering a chunk that forwards cleanly. -/
def clientOnlyRound (r : Round) : Bool :=
  r.exceptional.isEmpty
    && r.reads.all (fun p => p.1 == Sock.client && isOkChunk p.2)

/-- All bytes read during one round, in handling order. -/
def roundBytes (r : Round) : List Nat :=
  (r.reads.map (fun p => readData p.2)).flatten

/-- All bytes read over a script of rounds, in handling order. -/
def scriptBytes (rs : List Round) : List Nat :=
  (rs.map roundBytes).flatten

/-- Header names pairwise distinct after `str.lower`, the condition under
which the `Message` first-match lookup returns each header's own value. -/
def ciNamesNodup (hs : Headers) : Prop :=
  (hs.map (fun kv => pyLower kv.1)).Nodup

instance (hs : Headers) : Decidable (ciNamesNodup hs) := by
  unfold ciNamesNodup; infer_instance

/-! ### Helper lemmas -/

theorem headersGet_of_mem_nodup (hs : Headers) (kv : String × String) (fb : String)
    (hmem : kv ∈ hs) (hnd : (hs.map (fun p => pyLower p.1)).Nodup) :
    headersGet hs kv.1 fb = kv.2 := by
  induction hs with
  | nil => cases hmem
  | cons a t ih =>
    rw [List.map_cons, List.nodup_cons] at hnd
    rcases List.mem_cons.1 hmem with rfl | hmt
    · unfold headersGet
      rw [List.find?_cons_of_pos _ (by simp)]
    · have hne : (pyLower a.1 == pyLower kv.1) = false := by
        rw [beq_eq_false_iff_ne]
        intro heq
        exact hnd.1 (heq ▸ List.mem_map.2 ⟨kv, hmt, rfl⟩)
      unfold headersGet
      rw [List.find?_cons_of_neg _ (by simp [hne])]
      exact ih hmt hnd.2

theorem runReadable_nil (st : RelayState) : runReadable st [] = st := rfl

theorem runReadable_cons (st : RelayState) (p : Sock × RecvOutcome)
    (ps : List (Sock × RecvOutcome)) :
    runReadable st (p :: ps) = runReadable (handleReadable st p.1 p.2) ps := rfl

theorem runExceptional_nil (st : RelayState) : runExceptional st [] = st := rfl

theorem runExceptional_cons (st : RelayState) (s : Sock) (l : List Sock) :
    runExceptional st (s :: l) = runExceptional (handleExceptional st s) l := rfl

/-- Reading a non-empty chunk from the client and forwarding it cleanly binds
`other` to the backend and appends the chunk to the backend's stream. -/
theorem handleReadable_client_chunk (st : RelayState) (d : List Nat)
    (hcr : st.crashed = false) (hmem : Sock.client ∈ st.sockets)
    (hd : d.isEmpty = false) :
    handleReadable st Sock.client (RecvOutcome.chunk d true)
      = { st with other := some Sock.backend, toBackend := st.toBackend ++ d } := by
  unfold handleReadable
  simp [hcr, hmem, hd, Sock.pair, deliverTo]

/-- Over a pass in which every readable event is a clean client chunk, the
watched set, crash flag, client stream and closed list are unchanged and the
chunks land on the backend stream in order. -/
theorem runReadable_client_only (ps : List (Sock × RecvOutcome)) :
    ∀ st : RelayState, st.crashed = false →
    st.sockets = [Sock.client, Sock.backend] →
    ps.all (fun p => p.1 == Sock.client && isOkChunk p.2) = true →
    (runReadable st ps).crashed = false
    ∧ (runReadable st ps).sockets = st.sockets
    ∧ (runReadable st ps).toBackend
        = st.toBackend ++ (ps.map (fun p => readData p.2)).flatten
    ∧ (runReadable st ps).toClient = st.toClient
    ∧ (runReadable st ps).closedSocks = st.closedSocks := by
  induction ps with
  | nil => intro st hcr hsock _; simp [runReadable_nil, hcr]
  | cons p ps ih =>
    intro st hcr hsock hall
    rw [List.all_cons, Bool.and_eq_true] at hall
    obtain ⟨hp, hps⟩ := hall
    rw [Bool.and_eq_true] at hp
    have hs1 : p.1 = Sock.client := by simpa [beq_iff_eq] using hp.1
    obtain ⟨s, o⟩ := p
    cases o with
    | recvErr => simp [isOkChunk] at hp
    | chunk d sendOk =>
      rw [isOkChunk, Bool.and_eq_true] at hp
      have hd : d.isEmpty = false := by
        rcases hp.2 with ⟨h1, _⟩
        cases hde : d.isEmpty
        · rfl
        · rw [hde] at h1; cases h1
      have hok : sendOk = true := hp.2.2
      subst hok
      simp only at hs1
      subst hs1
      rw [runReadable_cons]
      simp only
      rw [handleReadable_client_chunk st d hcr (by rw [hsock]; simp) hd]
      have := ih { st with other := some Sock.backend, toBackend := st.toBackend ++ d }
        hcr hsock hps
      simpa [List.append_assoc] using this

/-- One full iteration over a client-only round. -/
theorem stepRound_client_only (st : RelayState) (r : Round)
    (hcr : st.crashed = false) (hsock : st.sockets = [Sock.client, Sock.backend])
    (hr : clientOnlyRound r = true) :
    (stepRound st r).crashed = false
    ∧ (stepRound st r).sockets = st.sockets
    ∧ (stepRound st r).toBackend = st.toBackend ++ roundBytes r
    ∧ (stepRound st r).toClient = st.toClient
    ∧ (stepRound st r).closedSocks = st.closedSocks := by
  rw [clientOnlyRound, Bool.and_eq_true] at hr
  have hexc : r.exceptional = [] := by
    have := hr.1
    cases hE : r.exceptional
    · rfl
    · rw [hE] at this; cases this
  unfold stepRound
  rw [hexc, runExceptional_nil]
  exact runReadable_client_only r.reads st hcr hsock hr.2

/-- The relay run over a script of client-only rounds: both sockets stay
watched, nothing crashes, nothing reaches the client, and the backend
receives exactly the concatenation of all chunks in order. -/
theorem runRelay_client_only (rs : List Round) :
    ∀ st : RelayState, st.crashed = false →
    st.sockets = [Sock.client, Sock.backend] →
    rs.all clientOnlyRound = true →
    (runRelay st rs).crashed = false
    ∧ (runRelay st rs).sockets = st.sockets
    ∧ (runRelay st rs).toBackend = st.toBackend ++ scriptBytes rs
    ∧ (runRelay st rs).toClient = st.toClient
    ∧ (runRelay st rs).closedSocks = st.closedSocks := by
  induction rs with
  | nil => intro st hcr hsock _; simp [runRelay, scriptBytes, hcr]
  | cons r rs ih =>
    intro st hcr hsock hall
    rw [List.all_cons, Bool.and_eq_true] at hall
    have hdone : relayLoopDone st = false := by
      rw [relayLoopDone, hcr, hsock]; rfl
    rw [runRelay, hdone]
    simp only [Bool.false_eq_true, if_false]
    obtain ⟨h1, h2, h3, h4, h5⟩ := stepRound_client_only st r hcr hsock hall.1
    obtain ⟨g1, g2, g3, g4, g5⟩ := ih (stepRound st r) h1 (h2.trans hsock) hall.2
    refine ⟨g1, g2.trans h2, ?_, g4.trans h4, g5.trans h5⟩
    rw [g3, h3]
    simp [scriptBytes, List.append_assoc]

/-- Every socket of the pair is accounted for: still watched, or closed.
Holds initially and is preserved by every branch of the loop body, because
each `sockets.remove(s)` is immediately followed by `s.close()`. -/
def accounted (st : RelayState) : Prop :=
  ∀ s : Sock, s ∈ st.sockets ∨ s ∈ st.closedSocks

theorem accounted_initState : accounted initState := by
  intro s; left; cases s <;> simp [initState]

theorem accounted_closeSock (st : RelayState) (s : Sock) (h : accounted st) :
    accounted (closeSock st s) := by
  intro t
  rcases h t with ht | ht
  · by_cases hts : t = s
    · subst hts; right; simp [closeSock]
    · left
      show t ∈ st.sockets.erase s
      exact (List.mem_erase_of_ne hts).2 ht
  · right; simp [closeSock, ht]

theorem accounted_crashed (st : RelayState) (h : accounted st) :
    accounted { st with crashed := true } := h

theorem accounted_deliverTo (st : RelayState) (s : Sock) (d : List Nat)
    (h : accounted st) : accounted (deliverTo st s d) := by
  cases s <;> exact h

theorem accounted_handleExceptional (st : RelayState) (s : Sock)
    (h : accounted st) : accounted (handleExceptional st s) := by
  unfold handleExceptional
  split
  · exact h
  · split
    · exact accounted_closeSock st s h
    · exact accounted_crashed st h

theorem accounted_handleReadable (st : RelayState) (s : Sock) (o : RecvOutcome)
    (h : accounted st) : accounted (handleReadable st s o) := by
  unfold handleReadable
  split
  · exact h
  · split
    · cases o with
      | recvErr => exact accounted_closeSock st s h
      | chunk data sendOk =>
        dsimp only
        by_cases hd : data.isEmpty
        · rw [if_pos hd]
          have h1 : accounted (closeSock st s) := accounted_closeSock st s h
          cases st.other with
          | none => exact accounted_crashed _ h1
          | some oth =>
            by_cases hm : oth ∈ (closeSock st s).sockets
            · simp only [hm, if_pos]
              exact accounted_closeSock _ oth h1
            · simp only [hm, if_neg, not_false_iff]
              exact h1
        · rw [if_neg hd]
          have h1 : accounted { st with other := some s.pair } := h
          cases sendOk
          · exact accounted_closeSock _ s h1
          · exact accounted_deliverTo _ _ data h1
    · exact h

theorem accounted_runExceptional (l : List Sock) :
    ∀ st : RelayState, accounted st → accounted (runExceptional st l) := by
  induction l with
  | nil => intro st h; exact h
  | cons a t ih =>
    intro st h
    rw [runExceptional_cons]
    exact ih _ (accounted_handleExceptional st a h)

theorem accounted_runReadable (l : List (Sock × RecvOutcome)) :
    ∀ st : RelayState, accounted st → accounted (runReadable st l) := by
  induction l with
  | nil => intro st h; exact h
  | cons p t ih =>
    intro st h
    rw [runReadable_cons]
    exact ih _ (accounted_handleReadable st p.1 p.2 h)

theorem accounted_stepRound (st : RelayState) (r : Round) (h : accounted st) :
    accounted (stepRound st r) :=
  accounted_runReadable r.reads _ (accounted_runExceptional r.exceptional st h)

theorem accounted_runRelay (rs : List Round) :
    ∀ st : RelayState, accounted st → accounted (runRelay st rs) := by
  induction rs with
  | nil => intro st h; exact h
  | cons r rs ih =>
    intro st h
    rw [runRelay]
    split
    · exact h
    · exact ih _ (accounted_stepRound st r h)

/-! ### Claim theorems -/

/-- C1 (code_bug). The claim - on EOF both the socket and its pair partner
are removed and closed, on every iteration including an EOF first - fails on
the code. First conjunct: the client forwards one chunk (binding `other` to
the backend), then the backend reports EOF; the stale `other` IS the backend
just removed, so only the backend is closed and the client stays watched
forever. Second conjunct: with EOF as the first readable event, `other` is
unbound and the loop dies of NameError (`crashed`), again without the client
being closed. The last two conjuncts show both select rounds are ones
`select` can produce over the watched set. -/
theorem eof_propagation_fails :
    runRelay initState
        [⟨[], [(Sock.client, RecvOutcome.chunk [104] true)]⟩,
         ⟨[], [(Sock.backend, RecvOutcome.chunk [] true)]⟩]
      = ⟨[Sock.client], some Sock.backend, [Sock.backend], [], [104], false⟩
    ∧ runRelay initState [⟨[], [(Sock.backend, RecvOutcome.chunk [] true)]⟩]
      = ⟨[Sock.client], none, [Sock.backend], [], [], true⟩
    ∧ validRound initState ⟨[], [(Sock.client, RecvOutcome.chunk [104] true)]⟩
    ∧ validRound ⟨[Sock.client, Sock.backend], some Sock.backend, [], [], [104], false⟩
        ⟨[], [(Sock.backend, RecvOutcome.chunk [] true)]⟩ := by
  decide

/-- C2 counterexample. A request carrying two headers of the same name is
not replayed exactly: `self.headers[header]` returns the FIRST
case-insensitive match, so both occurrences of `Cookie` are sent with the
first value `a`, while the spec's serialization keeps each header's own
value. -/
theorem duplicate_header_replay_not_exact :
    forwardedBytes ⟨"GET", "/ws", "HTTP/1.1", [("Cookie", "a"), ("Cookie", "b")]⟩
      ≠ specForwardedBytes ⟨"GET", "/ws", "HTTP/1.1", [("Cookie", "a"), ("Cookie", "b")]⟩
    ∧ forwardedBytes ⟨"GET", "/ws", "HTTP/1.1", [("Cookie", "a"), ("Cookie", "b")]⟩
      = "GET /ws HTTP/1.1\r\nCookie: a\r\nCookie: a\r\n\r\n"
    ∧ specForwardedBytes ⟨"GET", "/ws", "HTTP/1.1", [("Cookie", "a"), ("Cookie", "b")]⟩
      = "GET /ws HTTP/1.1\r\nCookie: a\r\nCookie: b\r\n\r\n" := by
  decide

/-- C2 (amended). Whenever the captured header names are pairwise distinct
up to case - in particular for every ordinary upgrade request - the byte
sequence written to the backend equals exactly the request line
`"<METHOD> <PATH> <VERSION>\r\n"`, each header as `"<Name>: <Value>\r\n"` in
original order, and a final `"\r\n"`, with no rewriting. -/
theorem handshake_replay_exact_of_distinct_names (req : CapturedRequest)
    (h : ciNamesNodup req.headers) :
    forwardedBytes req = specForwardedBytes req := by
  have hmap : req.headers.map
        (fun kv => kv.1 ++ ": " ++ headersGet req.headers kv.1 "" ++ CRLF)
      = req.headers.map (fun kv => kv.1 ++ ": " ++ kv.2 ++ CRLF) := by
    apply List.map_congr_left
    intro kv hkv
    rw [headersGet_of_mem_nodup req.headers kv "" hkv h]
  unfold forwardedBytes specForwardedBytes
  rw [hmap]

/-- Witness for C2's amended theorem at a concrete upgrade request. -/
theorem handshake_replay_exact_of_distinct_names_witness :
    forwardedBytes ⟨"GET", "/chat", "HTTP/1.1",
        [("Host", "localhost:8080"), ("Upgrade", "websocket"),
         ("Connection", "Upgrade")]⟩
      = specForwardedBytes ⟨"GET", "/chat", "HTTP/1.1",
        [("Host", "localhost:8080"), ("Upgrade", "websocket"),
         ("Connection", "Upgrade")]⟩ :=
  handshake_replay_exact_of_distinct_names
    ⟨"GET", "/chat", "HTTP/1.1",
        [("Host", "localhost:8080"), ("Upgrade", "websocket"),
         ("Connection", "Upgrade")]⟩ (by decide)

/-- C3 (confirmed). Over any script of select rounds in which every readable
event is the client delivering a chunk that forwards without error - any
chunking within the environment's control - the backend receives exactly the
concatenation of the chunks, in order and byte-identical; nothing is written
to the client, nothing is closed, and the loop is still relaying. The
all-or-error delivery of each chunk is the modelled semantics of
`other.sendall(data)` (line 65), which retries short writes until every byte
is out or an error is raised. -/
theorem relay_preserves_client_byte_order (rs : List Round) (B1 B2 : List Nat)
    (henv : rs.all clientOnlyRound = true)
    (hbytes : scriptBytes rs = B1 ++ B2) :
    (runRelay initState rs).toBackend = B1 ++ B2
    ∧ (runRelay initState rs).toClient = []
    ∧ (runRelay initState rs).crashed = false
    ∧ (runRelay initState rs).sockets = [Sock.client, Sock.backend] := by
  obtain ⟨h1, h2, h3, h4, h5⟩ := runRelay_client_only rs initState rfl rfl henv
  refine ⟨?_, h4, h1, h2⟩
  rw [h3, hbytes]
  rfl

/-- Witness for C3 at B1 = [1, 2], B2 = [3], chunked as [1, 2] then [3]. -/
theorem relay_preserves_client_byte_order_witness :
    (runRelay initState
        [⟨[], [(Sock.client, RecvOutcome.chunk [1, 2] true)]⟩,
         ⟨[], [(Sock.client, RecvOutcome.chunk [3] true)]⟩]).toBackend
      = [1, 2] ++ [3]
    ∧ (runRelay initState
        [⟨[], [(Sock.client, RecvOutcome.chunk [1, 2] true)]⟩,
         ⟨[], [(Sock.client, RecvOutcome.chunk [3] true)]⟩]).toClient = []
    ∧ (runRelay initState
        [⟨[], [(Sock.client, RecvOutcome.chunk [1, 2] true)]⟩,
         ⟨[], [(Sock.client, RecvOutcome.chunk [3] true)]⟩]).crashed = false
    ∧ (runRelay initState
        [⟨[], [(Sock.client, RecvOutcome.chunk [1, 2] true)]⟩,
         ⟨[], [(Sock.client, RecvOutcome.chunk [3] true)]⟩]).sockets
      = [Sock.client, Sock.backend] :=
  relay_preserves_client_byte_order
    [⟨[], [(Sock.client, RecvOutcome.chunk [1, 2] true)]⟩,
     ⟨[], [(Sock.client, RecvOutcome.chunk [3] true)]⟩]
    [1, 2] [3] (by decide) (by decide)

/-- C4 (confirmed). For every header list, the classifier dispatches to the
relay exactly when the `Upgrade` header value (first case-insensitive match,
missing treated as `""`) lower-cases to `"websocket"`, and to the static
file handler exactly otherwise; the two routes are mutually exclusive by
construction, so the relay path never reaches the static handler and vice
versa. -/
theorem classifier_relays_iff_websocket (hs : Headers) :
    (do_GET hs = RouteKind.websocketRelay
        ↔ pyLower (headersGet hs "Upgrade" "") = "websocket")
    ∧ (do_GET hs = RouteKind.staticFile
        ↔ ¬ pyLower (headersGet hs "Upgrade" "") = "websocket") := by
  unfold do_GET
  by_cases h : pyLower (headersGet hs "Upgrade" "") = "websocket" <;>
    simp [h]

/-- C5 (confirmed). When `backend.connect` fails, the outer
`except Exception` handler answers the client with 502 Bad Gateway;
`send_error` marks the connection for close (`Connection: close` and
`close_connection = True`, after which the server framework closes the
client socket), no handshake bytes are written, the relay never runs, and
exactly one connect attempt was made (line 31 is the only connect call and
nothing retries it). -/
theorem backend_unreachable_yields_502 (req : CapturedRequest) (env : WsEnv)
    (h : env.connectOk = false) :
    handle_websocket req env
      = { connectAttempts := 1, handshakeSent := none, relayFinal := none,
          errorResponse := some 502, close_connection := true } := by
  unfold handle_websocket
  rw [h]
  rfl

/-- Witness for C5: a concrete upgrade request against an unreachable
backend. -/
theorem backend_unreachable_yields_502_witness :
    handle_websocket ⟨"GET", "/ws", "HTTP/1.1", [("Upgrade", "websocket")]⟩
        ⟨false, true, []⟩
      = { connectAttempts := 1, handshakeSent := none, relayFinal := none,
          errorResponse := some 502, close_connection := true } :=
  backend_unreachable_yields_502
    ⟨"GET", "/ws", "HTTP/1.1", [("Upgrade", "websocket")]⟩ ⟨false, true, []⟩ rfl

/-- C6 counterexample. A mid-relay socket error tears down ONLY the affected
socket, never its partner: after a `recv` error on the client (first
conjunct), after exceptional readiness of the client (second), and after a
`sendall` failure while forwarding a client chunk (third), the backend is
still in the watched set and unclosed, so the session has not ended -
contradicting the claim that both sockets of the pair are removed and
closed. -/
theorem socket_error_leaves_partner_watched :
    runRelay initState [⟨[], [(Sock.client, RecvOutcome.recvErr)]⟩]
      = ⟨[Sock.backend], none, [Sock.client], [], [], false⟩
    ∧ runRelay initState [⟨[Sock.client], []⟩]
      = ⟨[Sock.backend], none, [Sock.client], [], [], false⟩
    ∧ runRelay initState [⟨[], [(Sock.client, RecvOutcome.chunk [5] false)]⟩]
      = ⟨[Sock.backend], some Sock.backend, [Sock.client], [], [], false⟩
    ∧ validRound initState ⟨[], [(Sock.client, RecvOutcome.recvErr)]⟩ := by
  decide

/-- C6 (amended). On every mid-relay socket error - a `recv` failure, a
socket reported exceptional by `select`, or a `sendall` failure (which hits
the socket that was read from) - exactly the affected socket is removed from
the watched set and closed; its pair partner stays watched and is not closed
by that branch, so the session continues on the partner alone; the error is
caught (or, for the exceptional pass, no exception is raised) and the loop
does not crash. -/
theorem socket_error_closes_only_affected (st : RelayState) (s : Sock)
    (d : List Nat) (hcr : st.crashed = false) (hs : s ∈ st.sockets)
    (hp : s.pair ∈ st.sockets) (hd : d.isEmpty = false) :
    handleReadable st s RecvOutcome.recvErr = closeSock st s
    ∧ handleExceptional st s = closeSock st s
    ∧ handleReadable st s (RecvOutcome.chunk d false)
        = closeSock { st with other := some s.pair } s
    ∧ (closeSock st s).crashed = false
    ∧ (closeSock st s).closedSocks = st.closedSocks ++ [s]
    ∧ s.pair ∈ (closeSock st s).sockets := by
  refine ⟨?_, ?_, ?_, hcr, rfl, ?_⟩
  · unfold handleReadable
    simp [hcr, hs]
  · unfold handleExceptional
    simp [hcr, hs]
  · unfold handleReadable
    simp [hcr, hs, hd]
  · show s.pair ∈ st.sockets.erase s
    exact (List.mem_erase_of_ne (Sock.pair_ne s)).2 hp

/-- Witness for C6's amended theorem: a `recv` error on the client in the
initial relay state. -/
theorem socket_error_closes_only_affected_witness :
    handleReadable initState Sock.client RecvOutcome.recvErr
        = closeSock initState Sock.client
    ∧ handleExceptional initState Sock.client = closeSock initState Sock.client
    ∧ handleReadable initState Sock.client (RecvOutcome.chunk [5] false)
        = closeSock { initState with other := some Sock.client.pair } Sock.client
    ∧ (closeSock initState Sock.client).crashed = false
    ∧ (closeSock initState Sock.client).closedSocks
        = initState.closedSocks ++ [Sock.client]
    ∧ Sock.client.pair ∈ (closeSock initState Sock.client).sockets :=
  socket_error_closes_only_affected initState Sock.client [5]
    (by decide) (by decide) (by decide) (by decide)

/-- C7 counterexample. An exit path on which the backend socket is NOT
closed: the client's EOF is the first readable event, so the EOF branch
references the unbound local `other`, the NameError escapes the loop, and
the outer handler answers 502. The relay's final state shows only the client
was ever closed - the backend socket opened at line 30 leaks (the function
has no `finally`/`with` guaranteeing its close). -/
theorem relay_error_exit_leaves_backend_unclosed :
    (handle_websocket ⟨"GET", "/ws", "HTTP/1.1", []⟩
        ⟨true, true, [⟨[], [(Sock.client, RecvOutcome.chunk [] true)]⟩]⟩).relayFinal
      = some ⟨[Sock.backend], none, [Sock.client], [], [], true⟩
    ∧ (handle_websocket ⟨"GET", "/ws", "HTTP/1.1", []⟩
        ⟨true, true, [⟨[], [(Sock.client, RecvOutcome.chunk [] true)]⟩]⟩).errorResponse
      = some 502
    ∧ Sock.backend
        ∉ (⟨[Sock.backend], none, [Sock.client], [], [], true⟩ : RelayState).closedSocks := by
  decide

/-- C7 (amended). On normal completion of the relay loop - the watched set
has become empty without a crash or even with one, since every removal from
the watched set closes the removed socket - both the client and the backend
socket have been closed. On exception exit paths (connect failure after the
socket is created, a handshake `send` failure, or an error escaping the
loop) the backend socket opened at line 30 is not closed, there being no
deferred-cleanup construct; the client is closed by the server framework
after the 502 response. -/
theorem relay_normal_exit_closes_both (rs : List Round)
    (h : (runRelay initState rs).sockets = []) :
    Sock.client ∈ (runRelay initState rs).closedSocks
    ∧ Sock.backend ∈ (runRelay initState rs).closedSocks := by
  have hacc := accounted_runRelay rs initState accounted_initState
  constructor
  · rcases hacc Sock.client with hc | hc
    · rw [h] at hc; cases hc
    · exact hc
  · rcases hacc Sock.backend with hb | hb
    · rw [h] at hb; cases hb
    · exact hb

/-- Witness for C7's amended theorem: the backend sends one chunk and then
EOF; both sockets end up closed and the loop's watched set is empty. -/
theorem relay_normal_exit_closes_both_witness :
    Sock.client ∈ (runRelay initState
        [⟨[], [(Sock.backend, RecvOutcome.chunk [7] true)]⟩,
         ⟨[], [(Sock.backend, RecvOutcome.chunk [] true)]⟩]).closedSocks
    ∧ Sock.backend ∈ (runRelay initState
        [⟨[], [(Sock.backend, RecvOutcome.chunk [7] true)]⟩,
         ⟨[], [(Sock.backend, RecvOutcome.chunk [] true)]⟩]).closedSocks :=
  relay_normal_exit_closes_both
    [⟨[], [(Sock.backend, RecvOutcome.chunk [7] true)]⟩,
     ⟨[], [(Sock.backend, RecvOutcome.chunk [] true)]⟩] (by decide)

/-- C8 counterexample. The loop does not exit only when the watched set is
empty: with a backend EOF as the first readable event the unbound `other`
raises NameError, the loop is aborted (`crashed`, and the following round's
client chunk is never processed - `toBackend` stays empty) while the client
is still in the watched set. -/
theorem crash_aborts_loop_with_nonempty_watched_set :
    runRelay initState
        [⟨[], [(Sock.backend, RecvOutcome.chunk [] true)]⟩,
         ⟨[], [(Sock.client, RecvOutcome.chunk [5] true)]⟩]
      = ⟨[Sock.client], none, [Sock.backend], [], [], true⟩
    ∧ relayLoopDone ⟨[Sock.client], none, [Sock.backend], [], [], true⟩ = true
    ∧ ([Sock.client] : List Sock) ≠ [] := by
  decide

/-- C8 (amended). The `while sockets:` guard is emptiness of the watched
set: an empty script leaves the state alone, an empty watched set stops the
loop before the round is processed, and otherwise - absent a crash - the
loop runs the round's body and continues, termination being driven solely by
the EOF/error branches that empty the set; however an exception escaping the
body (the unbound-`other` NameError) also ends the loop, with sockets still
watched. -/
theorem relay_loop_guard (st : RelayState) (r : Round) (rs : List Round) :
    runRelay st [] = st
    ∧ (st.sockets = [] → runRelay st (r :: rs) = st)
    ∧ (st.crashed = false → st.sockets ≠ [] →
        runRelay st (r :: rs) = runRelay (stepRound st r) rs) := by
  refine ⟨rfl, ?_, ?_⟩
  · intro h
    simp [runRelay, relayLoopDone, h]
  · intro hcr hne
    have hie : st.sockets.isEmpty = false := by
      cases hS : st.sockets
      · exact absurd hS hne
      · rfl
    simp [runRelay, relayLoopDone, hcr, hie]

/-- C9 (confirmed, implicit). When forwarding a non-empty chunk fails with a
socket error on the `sendall` to the partner, the `except socket.error`
branch removes and closes the socket that was READ from (`s`, whose `recv`
succeeded), while the partner socket - the one the write actually failed
on - remains in the watched set and is not closed by that branch (the
closed list grows by `s` alone). -/
theorem sendall_failure_closes_reader (st : RelayState) (s : Sock)
    (d : List Nat) (hcr : st.crashed = false) (hs : s ∈ st.sockets)
    (hp : s.pair ∈ st.sockets) (hd : d.isEmpty = false) :
    handleReadable st s (RecvOutcome.chunk d false)
      = { st with other := some s.pair,
                  sockets := st.sockets.erase s,
                  closedSocks := st.closedSocks ++ [s] }
    ∧ s.pair ∈ (handleReadable st s (RecvOutcome.chunk d false)).sockets
    ∧ (handleReadable st s (RecvOutcome.chunk d false)).closedSocks
        = st.closedSocks ++ [s] := by
  have heq : handleReadable st s (RecvOutcome.chunk d false)
      = closeSock { st with other := some s.pair } s := by
    unfold handleReadable
    simp [hcr, hs, hd]
  refine ⟨by rw [heq]; rfl, ?_, by rw [heq]; rfl⟩
  rw [heq]
  show s.pair ∈ st.sockets.erase s
  exact (List.mem_erase_of_ne (Sock.pair_ne s)).2 hp

/-- Witness for C9: a failed forward of a client chunk in the initial state. -/
theorem sendall_failure_closes_reader_witness :
    handleReadable initState Sock.client (RecvOutcome.chunk [9] false)
      = { initState with other := some Sock.client.pair,
                         sockets := initState.sockets.erase Sock.client,
                         closedSocks := initState.closedSocks ++ [Sock.client] }
    ∧ Sock.client.pair
        ∈ (handleReadable initState Sock.client (RecvOutcome.chunk [9] false)).sockets
    ∧ (handleReadable initState Sock.client (RecvOutcome.chunk [9] false)).closedSocks
        = initState.closedSocks ++ [Sock.client] :=
  sendall_failure_closes_reader initState Sock.client [9]
    (by decide) (by decide) (by decide) (by decide)

/-- C10 (confirmed, implicit). A request with no `Upgrade` header (no header
whose name case-insensitively equals `Upgrade`) is looked up as the empty
string and served statically; a lone `Upgrade` header relays exactly when
its lower-cased value is the string `"websocket"`, so values with extra
tokens or surrounding whitespace are served statically. -/
theorem classifier_exact_lowercase_match (hs : Headers) (v : String)
    (hmiss : hs.find? (fun kv => pyLower kv.1 == pyLower "Upgrade") = none) :
    headersGet hs "Upgrade" "" = ""
    ∧ do_GET hs = RouteKind.staticFile
    ∧ (do_GET [("Upgrade", v)] = RouteKind.websocketRelay ↔ pyLower v = "websocket")
    ∧ do_GET [("Upgrade", "websocket, keep-alive")] = RouteKind.staticFile
    ∧ do_GET [("Upgrade", " websocket ")] = RouteKind.staticFile := by
  have hget : headersGet hs "Upgrade" "" = "" := by
    unfold headersGet
    rw [hmiss]
  refine ⟨hget, ?_, ?_, by decide, by decide⟩
  · unfold do_GET
    rw [hget]
    decide
  · have hv : headersGet [("Upgrade", v)] "Upgrade" "" = v := by
      simp [headersGet, List.find?]
    unfold do_GET
    rw [hv]
    by_cases hl : pyLower v = "websocket" <;> simp [hl]

/-- Witness for C10: no `Upgrade` header among `Host`/`Connection`, and the
value `"WebSocket2"`. -/
theorem classifier_exact_lowercase_match_witness :
    headersGet [("Host", "localhost"), ("Connection", "close")] "Upgrade" "" = ""
    ∧ do_GET [("Host", "localhost"), ("Connection", "close")] = RouteKind.staticFile
    ∧ (do_GET [("Upgrade", "WebSocket2")] = RouteKind.websocketRelay
        ↔ pyLower "WebSocket2" = "websocket")
    ∧ do_GET [("Upgrade", "websocket, keep-alive")] = RouteKind.staticFile
    ∧ do_GET [("Upgrade", " websocket ")] = RouteKind.staticFile :=
  classifier_exact_lowercase_match
    [("Host", "localhost"), ("Connection", "close")] "WebSocket2" (by decide)

end WsProxy
